import Mathlib

/-!
Verification of the rider-checklist text-to-structure extraction engine.

The definitions below are a shallow embedding of `src/ocr.js` (class
`RiderParser`), `src/config.js` (the pattern registry) and
`src/checklist.js` (`ChecklistManager.flattenItems`).  JavaScript strings
are modelled as `List Char` / `String`, JavaScript regular expressions by
the small backtracking engine `RE`/`mrun` below (every quantified
subexpression occurring in this code base is a character class, which keeps
the matcher structurally recursive), and code that can throw by
`Except JsErr`.  JavaScript numbers only ever hold small integers on the
paths modelled here, so they are embedded as `Int`.
-/

namespace RiderSpec

/-- JavaScript `\s` (ECMAScript WhiteSpace ∪ LineTerminator, as used by
`\s`, `trim`, and the whitespace classes in `src/config.js`). -/
def isJsWs (c : Char) : Bool :=
  c = ' ' ∨ c = '\t' ∨ c = '\n' ∨ c = '\r' ∨
  c.val = 11 ∨ c.val = 12 ∨ c.val = 0xa0 ∨ c.val = 0x1680 ∨
  (0x2000 ≤ c.val ∧ c.val ≤ 0x200a) ∨ c.val = 0x2028 ∨ c.val = 0x2029 ∨
  c.val = 0x202f ∨ c.val = 0x205f ∨ c.val = 0x3000 ∨ c.val = 0xfeff

/-- JavaScript `\d`. -/
def isDigitCh (c : Char) : Bool := '0' ≤ c ∧ c ≤ '9'

/-- ASCII letter (what `[A-Za-z]`, or `[A-Z]` under the `i` flag, matches). -/
def isAsciiAlphaCh (c : Char) : Bool := ('A' ≤ c ∧ c ≤ 'Z') ∨ ('a' ≤ c ∧ c ≤ 'z')

/-- JavaScript `\w`. -/
def isWordCh (c : Char) : Bool := isAsciiAlphaCh c ∨ isDigitCh c ∨ c = '_'

/-- JavaScript `String.prototype.trim` on the character list. -/
def jsTrimL (l : List Char) : List Char :=
  ((l.dropWhile isJsWs).reverse.dropWhile isJsWs).reverse

def jsTrim (s : String) : String := String.mk (jsTrimL s.data)

def lowerL (l : List Char) : List Char := l.map Char.toLower

/-- JavaScript `toLowerCase`, restricted to the ASCII range exercised here. -/
def jsToLower (s : String) : String := String.mk (lowerL s.data)

def jsToUpper (s : String) : String := String.mk (s.data.map Char.toUpper)

/-- Substring containment, JavaScript `String.prototype.includes`
(case-sensitive). -/
def containsSub (h n : List Char) : Bool :=
  h.tails.any (fun t => n.isPrefixOf t)

def strIncludes (h n : String) : Bool := containsSub h.data n.data

/-- JavaScript `parseInt` with no radix argument: skip whitespace, optional
sign, then a `0x`/`0X` prefix selects base 16, otherwise base 10; the
maximal run of digits is converted, `none` standing for `NaN`. -/
def jsParseInt (s : String) : Option Int :=
  let l := s.data.dropWhile isJsWs
  let (sgn, l) : Int × List Char :=
    match l with
    | '-' :: t => (-1, t)
    | '+' :: t => (1, t)
    | t => (1, t)
  let hexDigit (c : Char) : Bool :=
    isDigitCh c ∨ ('a' ≤ c ∧ c ≤ 'f') ∨ ('A' ≤ c ∧ c ≤ 'F')
  let hexVal (c : Char) : Nat :=
    if isDigitCh c then c.toNat - '0'.toNat
    else if 'a' ≤ c ∧ c ≤ 'f' then c.toNat - 'a'.toNat + 10
    else c.toNat - 'A'.toNat + 10
  match l with
  | '0' :: x :: t =>
    if x = 'x' ∨ x = 'X' then
      let ds := t.takeWhile hexDigit
      if ds = [] then none
      else some (sgn * Int.ofNat (ds.foldl (fun a c => a * 16 + hexVal c) 0))
    else
      let ds := ('0' :: x :: t).takeWhile isDigitCh
      some (sgn * Int.ofNat (ds.foldl (fun a c => a * 10 + (c.toNat - '0'.toNat)) 0))
  | l =>
    let ds := l.takeWhile isDigitCh
    if ds = [] then none
    else some (sgn * Int.ofNat (ds.foldl (fun a c => a * 10 + (c.toNat - '0'.toNat)) 0))

/-- JavaScript truthy-`||` on an optional capture (captures are falsy when
`undefined` or the empty string). -/
def jsOr (a b : Option String) : Option String :=
  match a with
  | some s => if s = "" then b else some s
  | none => b

/-! ### A small backtracking regular-expression engine

`mrun` enumerates, in JavaScript backtracking preference order, every way a
regular expression can match a prefix of the input, together with the
capture groups.  All quantified subexpressions of the patterns in
`src/config.js` are character classes, so the quantifiers are the
class-specific `manyG`/`manyL` and the engine is structurally recursive. -/

inductive RE where
  /-- matches the empty string -/
  | eps : RE
  /-- a single character from a class -/
  | cls (p : Char → Bool) : RE
  /-- concatenation -/
  | seq (a b : RE) : RE
  /-- alternation, left branch preferred -/
  | alt (a b : RE) : RE
  /-- greedy `?` -/
  | optG (a : RE) : RE
  /-- greedy `*` over a character class -/
  | manyG (p : Char → Bool) : RE
  /-- lazy `*?` over a character class -/
  | manyL (p : Char → Bool) : RE
  /-- numbered capture group -/
  | grp (i : Nat) (a : RE) : RE
  /-- end-of-input anchor `$` -/
  | eos : RE

/-- greedy `+` over a character class -/
def RE.plusG (p : Char → Bool) : RE := .seq (.cls p) (.manyG p)

/-- lazy `+?` over a character class -/
def RE.plusL (p : Char → Bool) : RE := .seq (.cls p) (.manyL p)

/-- Capture-group store; index 0 is unused (the whole match is returned
separately), indices 1-4 cover every pattern in `src/config.js`. -/
def Groups : Type := List (Option (List Char))

def grpInit : Groups := List.replicate 5 none

/-- All ways `re` can match a prefix of `s`, in JavaScript preference
order; each result is the updated group store and the remaining suffix. -/
def mrun : RE → List Char → Groups → List (Groups × List Char)
  | .eps, s, g => [(g, s)]
  | .cls _, [], _ => []
  | .cls p, c :: s, g => if p c then [(g, s)] else []
  | .seq a b, s, g => (mrun a s g).flatMap (fun r => mrun b r.2 r.1)
  | .alt a b, s, g => mrun a s g ++ mrun b s g
  | .optG a, s, g => mrun a s g ++ [(g, s)]
  | .manyG p, s, g =>
    let k := (s.takeWhile p).length
    (List.range (k + 1)).map (fun j => (g, s.drop (k - j)))
  | .manyL p, s, g =>
    let k := (s.takeWhile p).length
    (List.range (k + 1)).map (fun j => (g, s.drop j))
  | .grp i a, s, g =>
    (mrun a s g).map (fun r => (r.1.set i (some (s.take (s.length - r.2.length))), r.2))
  | .eos, s, g => if s = [] then [(g, s)] else []

structure MatchRec where
  index : Nat
  matched : List Char
  groups : Groups

/-- Leftmost match: try each start position in turn, take the engine's
first result there (JavaScript `RegExp.prototype.exec` semantics). -/
def jsSearchAux (re : RE) : List Char → Nat → Option MatchRec
  | l, idx =>
    match (mrun re l grpInit).head? with
    | some r => some ⟨idx, l.take (l.length - r.2.length), r.1⟩
    | none =>
      match l with
      | [] => none
      | _ :: t => jsSearchAux re t (idx + 1)

/-- JavaScript `String.prototype.match` with a non-global regex: the first
match with its capture groups. -/
def jsFirstMatch (re : RE) (s : String) : Option MatchRec :=
  jsSearchAux re s.data 0

/-- JavaScript `RegExp.prototype.test`. -/
def jsTest (re : RE) (s : String) : Bool := (jsSearchAux re s.data 0).isSome

/-- `test`/`match` of a `^`-anchored pattern: only position 0 can match. -/
def jsTestAt0 (re : RE) (s : String) : Bool := !(mrun re s.data grpInit).isEmpty

def jsMatchAt0 (re : RE) (s : String) : Option MatchRec :=
  (mrun re s.data grpInit).head?.map
    (fun r => ⟨0, s.data.take (s.data.length - r.2.length), r.1⟩)

/-- All matches of a global regex, advancing past each match (one position
for an empty match), as `String.prototype.matchAll` enumerates them. -/
def jsMatchAllAux (re : RE) : Nat → List Char → Nat → List MatchRec
  | 0, _, _ => []
  | fuel + 1, l, base =>
    match jsSearchAux re l 0 with
    | none => []
    | some m =>
      let adv := m.index + (if m.matched.length = 0 then 1 else m.matched.length)
      ⟨base + m.index, m.matched, m.groups⟩ ::
        jsMatchAllAux re fuel (l.drop adv) (base + adv)

def jsMatchAll (re : RE) (s : String) : List MatchRec :=
  jsMatchAllAux re (s.data.length + 1) s.data 0

/-- JavaScript `String.prototype.match` with a GLOBAL regex: the array of
matched substrings (no capture groups), or `none` standing for `null` when
there is no match. -/
def jsMatchG (re : RE) (s : String) : Option (List String) :=
  let ms := (jsMatchAll re s).map (fun m => String.mk m.matched)
  if ms = [] then none else some ms

/-- Errors a modelled JavaScript computation can throw. -/
inductive JsErr where
  | typeError : JsErr
deriving DecidableEq

/-- `String.prototype.matchAll` throws a `TypeError` when the regex does
not carry the `g` flag (ECMAScript 2020+); `global` records the flag of the
source pattern. -/
def jsMatchAllE (global : Bool) (re : RE) (s : String) : Except JsErr (List MatchRec) :=
  if global then .ok (jsMatchAll re s) else .error .typeError

/-- capture group `i` of a match (`undefined` when it did not participate) -/
def mget (m : MatchRec) (i : Nat) : Option String :=
  ((m.groups.get? i).join).map String.mk

/-! ### The pattern registry (`src/config.js`)

Each regular expression literal of `PATTERNS` is transcribed into an `RE`
term.  Case-insensitive (`i`-flagged) literals and classes are encoded in
case-folded form (`litCI`/`chCI`; note that `[A-Z]` under `i` matches any
ASCII letter).  The original literal is quoted above each definition. -/

def chC (c : Char) : RE := .cls (fun x => x = c)

def chCI (c : Char) : RE := .cls (fun x => x.toLower = c)

def lit (s : String) : RE := s.data.foldr (fun c r => .seq (chC c) r) .eps

def litCI (s : String) : RE := s.data.foldr (fun c r => .seq (chCI c) r) .eps

def altL : List RE → RE
  | [] => .cls (fun _ => false)
  | r :: rs => rs.foldl .alt r

def seqL : List RE → RE
  | [] => .eps
  | r :: rs => rs.foldl .seq r

def wsCl : Char → Bool := isJsWs

/-- class `[\s:]` -/
def wsColonCl (c : Char) : Bool := isJsWs c || c = ':'

/-- class `[A-Za-z\s&'\-\.]` -/
def nameChCl (c : Char) : Bool :=
  isAsciiAlphaCh c || isJsWs c || c = '&' || c = '\'' || c = '-' || c = '.'

/-- class `[A-Za-z\s]` -/
def alphaWsCl (c : Char) : Bool := isAsciiAlphaCh c || isJsWs c

/-- class `[^\n]` -/
def notNlCl (c : Char) : Bool := c != '\n'

/-- class `[^\n\.]` -/
def notNlDotCl (c : Char) : Bool := c != '\n' && c != '.'

/-- class `[\s\-•*]` -/
def itemLeadCl (c : Char) : Bool := isJsWs c || c = '-' || c = '•' || c = '*'

/-- class `[-–]` -/
def dashCl (c : Char) : Bool := c = '-' || c = '–'

/-- class `[-–:)]` -/
def roomSepCl (c : Char) : Bool := c = '-' || c = '–' || c = ':' || c = ')'

/-- class `[\s.\-]` -/
def phoneSepCl (c : Char) : Bool := isJsWs c || c = '.' || c = '-'

/-- class `[a-zA-Z0-9._%+-]` -/
def emailLocalCl (c : Char) : Bool :=
  isAsciiAlphaCh c || isDigitCh c || c = '.' || c = '_' || c = '%' || c = '+' || c = '-'

/-- class `[a-zA-Z0-9.-]` -/
def emailDomCl (c : Char) : Bool :=
  isAsciiAlphaCh c || isDigitCh c || c = '.' || c = '-'

/-- class `[CF]` under the `i` flag -/
def cfCl (c : Char) : Bool := c.toLower = 'c' || c.toLower = 'f'

namespace PATTERNS

/-- `/(?:artist|performer|talent|act)[\s:]+([A-Z][A-Za-z\s&'\-\.]+?)(?:\n|tour|rider|dressing|management)/gi` -/
def artist1 : RE := seqL [altL [litCI "artist", litCI "performer", litCI "talent", litCI "act"],
  .plusG wsColonCl, .grp 1 (.seq (.cls isAsciiAlphaCh) (.plusL nameChCl)),
  altL [lit "\n", litCI "tour", litCI "rider", litCI "dressing", litCI "management"]]

/-- `/([A-Z][A-Za-z\s&'\-\.]+?)(?:'s)?\s+(?:tour\s+)?rider/gi` -/
def artist2 : RE := seqL [.grp 1 (.seq (.cls isAsciiAlphaCh) (.plusL nameChCl)),
  .optG (.seq (chC '\'') (chCI 's')), .plusG wsCl,
  .optG (.seq (litCI "tour") (.plusG wsCl)), litCI "rider"]

/-- `/(?:for|featuring|presents?)[\s:]+([A-Z][A-Za-z\s&'\-\.]+?)(?:\n|tour|rider)/gi` -/
def artist3 : RE := seqL [altL [litCI "for", litCI "featuring", .seq (litCI "present") (.optG (chCI 's'))],
  .plusG wsColonCl, .grp 1 (.seq (.cls isAsciiAlphaCh) (.plusL nameChCl)),
  altL [lit "\n", litCI "tour", litCI "rider"]]

/-- `/dressing\s+room\s+\d+\s*[-–:]\s*([A-Z][A-Za-z\s&'\-\.]+)/gi` -/
def artist4 : RE := seqL [litCI "dressing", .plusG wsCl, litCI "room", .plusG wsCl,
  .plusG isDigitCh, .manyG wsCl, .cls (fun c => c = '-' || c = '–' || c = ':'),
  .manyG wsCl, .grp 1 (.seq (.cls isAsciiAlphaCh) (.plusG nameChCl))]

def artist : List RE := [artist1, artist2, artist3, artist4]

/-- `/(?:dressing\s+room|room|dr|d\.r\.|area)\s*#?\s*(\d+|[A-Z])\s*[-–:)]?\s*([^\n]+)?/gi` -/
def room1 : RE := seqL [altL [seqL [litCI "dressing", .plusG wsCl, litCI "room"],
    litCI "room", litCI "dr", litCI "d.r.", litCI "area"],
  .manyG wsCl, .optG (chC '#'), .manyG wsCl,
  .grp 1 (.alt (.plusG isDigitCh) (.cls isAsciiAlphaCh)),
  .manyG wsCl, .optG (.cls roomSepCl), .manyG wsCl, .optG (.grp 2 (.plusG notNlCl))]

/-- `/(?:green\s+room|backstage|production\s+office|hospitality)\s*#?\s*(\d+|[A-Z])?/gi` -/
def room2 : RE := seqL [altL [seqL [litCI "green", .plusG wsCl, litCI "room"],
    litCI "backstage", seqL [litCI "production", .plusG wsCl, litCI "office"], litCI "hospitality"],
  .manyG wsCl, .optG (chC '#'), .manyG wsCl,
  .optG (.grp 1 (.alt (.plusG isDigitCh) (.cls isAsciiAlphaCh)))]

/-- `/(?:artist|talent|performer)\s+(?:room|area)\s*#?\s*(\d+|[A-Z])?/gi` -/
def room3 : RE := seqL [altL [litCI "artist", litCI "talent", litCI "performer"],
  .plusG wsCl, altL [litCI "room", litCI "area"], .manyG wsCl, .optG (chC '#'),
  .manyG wsCl, .optG (.grp 1 (.alt (.plusG isDigitCh) (.cls isAsciiAlphaCh)))]

def room : List RE := [room1, room2, room3]

/-- `/(?:contact|manager|coordinator|director)[\s:]+([A-Z][A-Za-z\s]+?)(?:\n|phone|cell|email|@)/gi` -/
def contactName : RE := seqL [altL [litCI "contact", litCI "manager", litCI "coordinator", litCI "director"],
  .plusG wsColonCl, .grp 1 (.seq (.cls isAsciiAlphaCh) (.plusL alphaWsCl)),
  altL [lit "\n", litCI "phone", litCI "cell", litCI "email", lit "@"]]

/-- `/([a-zA-Z0-9._%+-]+@[a-zA-Z0-9.-]+\.[a-zA-Z]{2,})/g` -/
def contactEmail : RE := .grp 1 (seqL [.plusG emailLocalCl, chC '@', .plusG emailDomCl,
  chC '.', .cls isAsciiAlphaCh, .cls isAsciiAlphaCh, .manyG isAsciiAlphaCh])

/-- `/(?:\+?1?\s*)?(?:\(?\d{3}\)?[\s.\-]?)?\d{3}[\s.\-]?\d{4}/g` -/
def contactPhone : RE := seqL [
  .optG (seqL [.optG (chC '+'), .optG (chC '1'), .manyG wsCl]),
  .optG (seqL [.optG (chC '('), .cls isDigitCh, .cls isDigitCh, .cls isDigitCh,
    .optG (chC ')'), .optG (.cls phoneSepCl)]),
  .cls isDigitCh, .cls isDigitCh, .cls isDigitCh, .optG (.cls phoneSepCl),
  .cls isDigitCh, .cls isDigitCh, .cls isDigitCh, .cls isDigitCh]

/-- `/(?:allerg(?:y|ic|ies)|cannot\s+have|no|avoid|restriction)[\s:]*(?:to|for)?\s*([^\n\.]+)/gi` -/
def allergy1 : RE := seqL [altL [.seq (litCI "allerg") (altL [chCI 'y', litCI "ic", litCI "ies"]),
    seqL [litCI "cannot", .plusG wsCl, litCI "have"], litCI "no", litCI "avoid", litCI "restriction"],
  .manyG wsColonCl, .optG (altL [litCI "to", litCI "for"]), .manyG wsCl,
  .grp 1 (.plusG notNlDotCl)]

/-- `/(?:do\s+not\s+(?:provide|include|serve))[\s:]*([^\n\.]+)/gi` -/
def allergy2 : RE := seqL [litCI "do", .plusG wsCl, litCI "not", .plusG wsCl,
  altL [litCI "provide", litCI "include", litCI "serve"],
  .manyG wsColonCl, .grp 1 (.plusG notNlDotCl)]

/-- `/\*+\s*([^\n]+?)\s+(?:allergy|allergic|restriction)/gi` -/
def allergy3 : RE := seqL [.plusG (fun c => c = '*'), .manyG wsCl, .grp 1 (.plusL notNlCl),
  .plusG wsCl, altL [litCI "allergy", litCI "allergic", litCI "restriction"]]

def allergy : List RE := [allergy1, allergy2, allergy3]

/-- `/(?:must\s+have|essential|required|mandatory|critical)/i` (no `g` flag) -/
def mustHave : RE := altL [seqL [litCI "must", .plusG wsCl, litCI "have"],
  litCI "essential", litCI "required", litCI "mandatory", litCI "critical"]

/-- `/(\d+)\s*°?\s*([CF])/i` (no `g` flag) -/
def temperature : RE := seqL [.grp 1 (.plusG isDigitCh), .manyG wsCl, .optG (chC '°'),
  .manyG wsCl, .grp 2 (.cls cfCl)]

/-- `/(?:by|before|after|at)\s+(\d{1,2}:\d{2}\s*(?:am|pm)?|\d{1,2}\s*(?:hours?|hrs?|minutes?|mins?))/i` (no `g` flag) -/
def timing : RE := seqL [altL [litCI "by", litCI "before", litCI "after", litCI "at"], .plusG wsCl,
  .grp 1 (.alt
    (seqL [.cls isDigitCh, .optG (.cls isDigitCh), chC ':', .cls isDigitCh, .cls isDigitCh,
      .manyG wsCl, .optG (altL [litCI "am", litCI "pm"])])
    (seqL [.cls isDigitCh, .optG (.cls isDigitCh), .manyG wsCl,
      altL [.seq (litCI "hour") (.optG (chCI 's')), .seq (litCI "hr") (.optG (chCI 's')),
        .seq (litCI "minute") (.optG (chCI 's')), .seq (litCI "min") (.optG (chCI 's'))]]))]

/-- the ten `^`-anchored `/i` category header patterns, in source order -/
def category : List RE := [
  altL [.seq (litCI "beverage") (.optG (chCI 's')), .seq (litCI "drink") (.optG (chCI 's')),
    litCI "alcohol", litCI "liquor", litCI "bar", litCI "spirits"],
  altL [litCI "food", litCI "catering", .seq (litCI "meal") (.optG (chCI 's')),
    .seq (litCI "snack") (.optG (chCI 's')), litCI "fruit",
    .seq (litCI "vegetable") (.optG (chCI 's'))],
  altL [litCI "equipment", litCI "technical", litCI "production", litCI "av",
    litCI "audio", litCI "video", litCI "lighting"],
  altL [litCI "furniture", .seq (litCI "furnishing") (.optG (chCI 's')),
    litCI "decor", litCI "amenities"],
  altL [litCI "toiletries", seqL [litCI "personal", .plusG wsCl, litCI "care"],
    litCI "hygiene", litCI "bathroom"],
  altL [.seq (litCI "flower") (.optG (chCI 's')), .seq (litCI "arrangement") (.optG (chCI 's')),
    .seq (litCI "decoration") (.optG (chCI 's'))],
  altL [litCI "hospitality", litCI "service", litCI "staff", litCI "crew"],
  altL [litCI "security", litCI "access", litCI "credentials", litCI "passes"],
  altL [litCI "transportation", litCI "parking", .seq (litCI "vehicle") (.optG (chCI 's'))],
  altL [litCI "wardrobe", litCI "clothing", litCI "laundry", .seq (litCI "costume") (.optG (chCI 's'))]]

/-- `/^[\s\-•*]*(?:(\d+|one|two|three|four|five|six|seven|eight|nine|ten|dozen)\s+)?(?:\((\d+)\)\s+)?([^\n]+?)(?:\s*[-–]\s*([^\n]+))?$/i` -/
def item : RE := seqL [
  .manyG itemLeadCl,
  .optG (.seq (.grp 1 (altL [.plusG isDigitCh, litCI "one", litCI "two", litCI "three",
    litCI "four", litCI "five", litCI "six", litCI "seven", litCI "eight", litCI "nine",
    litCI "ten", litCI "dozen"])) (.plusG wsCl)),
  .optG (seqL [chC '(', .grp 2 (.plusG isDigitCh), chC ')', .plusG wsCl]),
  .grp 3 (.plusL notNlCl),
  .optG (seqL [.manyG wsCl, .cls dashCl, .manyG wsCl, .grp 4 (.plusG notNlCl)]),
  .eos]

end PATTERNS

/-- `/([A-Za-z\s]+)/` used inside `parseSpecialRequirements` -/
def letterSpacesRE : RE := .grp 1 (.plusG alphaWsCl)

/-- `CATEGORY_KEYWORDS` of `src/config.js`, in insertion order. -/
def CATEGORY_KEYWORDS : List (String × List String) := [
  ("beverages", ["water", "soda", "juice", "tea", "coffee", "beer", "wine", "vodka",
    "whiskey", "tequila", "rum", "champagne", "drinks", "bottle", "can", "beverage"]),
  ("food", ["sandwich", "salad", "fruit", "vegetable", "snack", "meal", "dinner", "lunch",
    "breakfast", "pizza", "chips", "candy", "chocolate", "nuts", "cheese", "meat",
    "chicken", "beef", "fish"]),
  ("equipment", ["microphone", "speaker", "cable", "stand", "light", "projector", "screen",
    "computer", "laptop", "printer", "phone", "charger", "adapter", "extension"]),
  ("furniture", ["chair", "table", "sofa", "couch", "desk", "lamp", "mirror", "rug",
    "carpet", "stool", "bench", "rack", "shelf", "cabinet"]),
  ("toiletries", ["soap", "shampoo", "towel", "tissue", "toilet", "toothbrush",
    "toothpaste", "deodorant", "lotion", "cream", "razor", "cotton", "wipes"]),
  ("wardrobe", ["iron", "steamer", "hanger", "rack", "laundry", "dry cleaning", "pressing",
    "garment", "costume", "outfit", "clothing"]),
  ("hospitality", ["tea", "coffee", "sugar", "cream", "milk", "honey", "lemon", "ice",
    "napkin", "plate", "cup", "glass", "utensil", "service"])]

/-- `QUANTITY_MAP` of `src/config.js`. -/
def QUANTITY_MAP : List (String × Int) := [
  ("one", 1), ("two", 2), ("three", 3), ("four", 4), ("five", 5), ("six", 6),
  ("seven", 7), ("eight", 8), ("nine", 9), ("ten", 10), ("eleven", 11), ("twelve", 12),
  ("dozen", 12), ("half dozen", 6), ("half-dozen", 6), ("case", 24), ("pair", 2),
  ("couple", 2), ("few", 3), ("several", 4), ("many", 6)]

/-- `COMMON_ALLERGENS` of `src/config.js`. -/
def COMMON_ALLERGENS : List String := [
  "nuts", "peanuts", "tree nuts", "almonds", "cashews", "walnuts", "pecans",
  "dairy", "milk", "cheese", "lactose", "butter", "cream",
  "gluten", "wheat", "bread", "flour",
  "shellfish", "shrimp", "lobster", "crab", "oysters",
  "eggs", "egg", "soy", "soybean",
  "fish", "salmon", "tuna", "cod",
  "sesame", "sesame seeds", "sulfites", "preservatives"]

/-- the inline brand list of `RiderParser.detectBrand`. -/
def brandList : List String := [
  "Coca-Cola", "Coke", "Pepsi", "Sprite", "Dr Pepper",
  "Fiji", "Evian", "SmartWater", "Dasani",
  "Red Bull", "Monster", "Rockstar",
  "Hennessy", "Grey Goose", "Patron", "Don Julio", "Casamigos",
  "Dove", "Gillette", "Colgate", "Crest"]

/-- the alias table of `RiderParser.standardizeCategoryName`. -/
def categoryAliasMap : List (String × String) := [
  ("BEVERAGES", "Beverages"), ("DRINKS", "Beverages"), ("FOOD", "Food"),
  ("CATERING", "Food"), ("EQUIPMENT", "Equipment"), ("TECH", "Equipment"),
  ("FURNITURE", "Furniture"), ("TOILETRIES", "Personal Care"),
  ("PERSONAL CARE", "Personal Care"), ("HOSPITALITY", "Hospitality")]

/-! ### Data model (§3 of the spec; the object shapes built in `src/ocr.js`) -/

structure Item where
  name : String
  quantity : Int
  unit : String
  brand : Option String
  room : Option String
  category : String
  notes : String
  mustHave : Bool
deriving DecidableEq

structure Room where
  id : String
  name : String
  description : String
  items : List Item
deriving DecidableEq

structure Contact where
  name : String
  role : String
  email : Option String
  phone : Option String
deriving DecidableEq

/-- The root result shape; `categories` is an insertion-ordered association
list, mirroring a JavaScript object's string-keyed entries. -/
structure StructuredRider where
  artists : List String
  rooms : List Room
  categories : List (String × List Item)
  items : List Item
  allergies : List String
  contacts : List Contact
  specialRequirements : List String
deriving DecidableEq

/-! ### `RiderParser` (`src/ocr.js`) -/

namespace RiderParser

/-- `.replace(/\r\n/g, '\n')`: left-to-right non-overlapping replacement. -/
def crlfToNl : List Char → List Char
  | [] => []
  | [c] => [c]
  | c :: d :: s =>
    if c = '\r' ∧ d = '\n' then '\n' :: crlfToNl s
    else c :: crlfToNl (d :: s)

/-- `.replace(/\r/g, '\n')`. -/
def crToNl (l : List Char) : List Char := l.map (fun c => if c = '\r' then '\n' else c)

/-- `.replace(/\t/g, ' ')`. -/
def tabToSp (l : List Char) : List Char := l.map (fun c => if c = '\t' then ' ' else c)

/-- `.replace(/\s+/g, ' ')`: each maximal whitespace run is replaced by one
space, emitted at the first character of the run (`prevWs` tracks whether
the previous character was part of a run). -/
def collapseWsAux : Bool → List Char → List Char
  | _, [] => []
  | prevWs, c :: s =>
    if isJsWs c then
      if prevWs then collapseWsAux true s else ' ' :: collapseWsAux true s
    else c :: collapseWsAux false s

theorem dropWhile_length_le {α : Type} (p : α → Bool) (l : List α) :
    (l.dropWhile p).length ≤ l.length := by
  induction l with
  | nil => simp [List.dropWhile]
  | cons c s ih =>
    simp only [List.dropWhile]
    split
    · exact Nat.le_succ_of_le ih
    · exact Nat.le_refl _

/-- a maximal run of `k` line feeds after `/\n{3,}/g → '\n\n'`. -/
def nlRunOut (k : Nat) : List Char :=
  if 3 ≤ k then ['\n', '\n'] else List.replicate k '\n'

/-- `.replace(/\n{3,}/g, '\n\n')`, carrying the length of the pending line
feed run: maximal runs of three or more line feeds become exactly two,
shorter runs are kept. -/
def collapseNlAux : Nat → List Char → List Char
  | k, [] => nlRunOut k
  | k, c :: s =>
    if c = '\n' then collapseNlAux (k + 1) s
    else nlRunOut k ++ (c :: collapseNlAux 0 s)

def collapseNl (l : List Char) : List Char := collapseNlAux 0 l

/-- `RiderParser.normalizeText`: the five chained `replace` calls. -/
def normalizeText (text : String) : String :=
  String.mk (collapseNl (collapseWsAux false (tabToSp (crToNl (crlfToNl text.data)))))

/-- `RiderParser.cleanName` (`!str` guard, `trim`, collapse whitespace). -/
def cleanName (s : Option String) : String :=
  match s with
  | none => ""
  | some s => String.mk (collapseWsAux false (jsTrimL s.data))

/-- `RiderParser.cleanPhone`: drop characters outside `[\d+\-().\s]`, trim. -/
def cleanPhone (s : String) : String :=
  jsTrim (String.mk (s.data.filter
    (fun c => isDigitCh c || c = '+' || c = '-' || c = '(' || c = ')' || c = '.' || isJsWs c)))

/-- `RiderParser.cleanAllergy`: trim, keep `[\w\s,]`, collapse whitespace. -/
def cleanAllergy (s : String) : String :=
  String.mk (collapseWsAux false
    ((jsTrimL s.data).filter (fun c => isWordCh c || isJsWs c || c = ',')))

/-- `RiderParser.cleanItemName`: strip one leading `[\-•*\s]+` run, collapse
whitespace, trim. -/
def cleanItemName (s : String) : String :=
  jsTrim (String.mk (collapseWsAux false (s.data.dropWhile itemLeadCl)))

/-- `RiderParser.capitalizeFirst`. -/
def capitalizeFirst (s : String) : String :=
  match s.data with
  | [] => ""
  | c :: t => String.mk (c.toUpper :: t)

/-- `RiderParser.standardizeCategoryName`: alias table on the upper-cased
trimmed input, else capitalize-first of the lower-cased input. -/
def standardizeCategoryName (s : String) : String :=
  let upper := jsTrim (jsToUpper s)
  match categoryAliasMap.find? (fun kv => kv.1 == upper) with
  | some kv => kv.2
  | none => capitalizeFirst (jsToLower s)

/-- `RiderParser.parseQuantity`; the argument is `match[1] || match[2]`, so
`none` stands for `undefined` (every `QUANTITY_MAP` value is nonzero, so
`map[lower] || 1` is a plain lookup-with-default). -/
def parseQuantity (o : Option String) : Int :=
  match o with
  | none => 1
  | some s =>
    if s = "" then 1
    else
      match jsParseInt s with
      | some n => n
      | none =>
        match QUANTITY_MAP.find? (fun kv => kv.1 == jsToLower s) with
        | some kv => kv.2
        | none => 1

/-- `RiderParser.detectUnit`: the ordered unit tests; each source regex
`/stems?/i` holds exactly when the name contains the stem
case-insensitively (`/box(es)?/i` ⇔ contains `box`, `/pounds?|lbs?/i` ⇔
contains `pound` or `lb`, `/liters?|litres?/i` ⇔ contains `liter` or
`litre`). -/
def detectUnit (name : String) : String :=
  let t := fun (w : String) => containsSub (lowerL name.data) w.data
  if t "bottle" then "bottle"
  else if t "can" then "can"
  else if t "case" then "case"
  else if t "pack" then "pack"
  else if t "box" then "box"
  else if t "bag" then "bag"
  else if t "dozen" then "dozen"
  else if t "pound" || t "lb" then "pound"
  else if t "gallon" then "gallon"
  else if t "liter" || t "litre" then "liter"
  else "item"

/-- `RiderParser.detectBrand`: first brand contained (case-sensitively) in
the item name. -/
def detectBrand (name : String) : Option String :=
  brandList.find? (fun b => strIncludes name b)

/-- `RiderParser.detectCategory`: `^`-anchored category patterns (all of
which standardize the same line, so testing them in any order is
equivalent), then the keyword table in insertion order, then the
short-all-caps header heuristic `/^[A-Z\s&]+$/` with
`maxCategoryLength = 40`. -/
def detectCategory (line : String) : Option String :=
  if PATTERNS.category.any (fun p => jsTestAt0 p line) then
    some (standardizeCategoryName line)
  else
    match CATEGORY_KEYWORDS.findSome? (fun ck =>
      if ck.2.any (fun kw => strIncludes (jsToLower line) kw) then
        some (capitalizeFirst ck.1)
      else none) with
    | some c => some c
    | none =>
      if (!line.data.isEmpty) &&
          line.data.all (fun c => (decide ('A' ≤ c ∧ c ≤ 'Z')) || isJsWs c || c = '&') &&
          decide (line.length < 40) then
        some (standardizeCategoryName line)
      else none

/-- `RiderParser.detectRoomContext`.  Each room pattern carries the `g`
flag, and `line.match(globalRegex)` returns the array of matched substrings
without capture groups; the function returns `match[1]` — the SECOND
matched substring, `undefined` unless the line matches the pattern at least
twice — as soon as any pattern matches (`none` covers both the final
`return null` and a returned `undefined`; both are falsy at the call
site). -/
def detectRoomContext (line : String) : Option String :=
  (PATTERNS.room.findSome? (fun p => (jsMatchG p line).map (fun ms => ms.get? 1))).join

/-- `RiderParser.parseItem`.  `PATTERNS.item` is `^...$`-anchored, so
`line.match` can only match at position 0; `minItemLength = 3`. -/
def parseItem (line : String) (category : String) (room : Option String) : Option Item :=
  match jsMatchAt0 PATTERNS.item line with
  | none => none
  | some m =>
    match mget m 3 with
    | none => none
    | some s3 =>
      if s3 = "" then none
      else
        let itemName := cleanItemName s3
        if itemName = "" ∨ itemName.length < 3 then none
        else some {
          name := itemName,
          quantity := parseQuantity (jsOr (mget m 1) (mget m 2)),
          unit := detectUnit itemName,
          brand := detectBrand itemName,
          room := room,
          category := category,
          notes := (mget m 4).getD "",
          mustHave := jsTest PATTERNS.mustHave line }

/-- running state of `parseItemsAndCategories`: the two state variables,
the three output collections, and the caller's (mutated) room array. -/
structure LCState where
  category : String
  room : Option String
  items : List Item
  categories : List (String × List Item)
  rooms : List Room
deriving DecidableEq

/-- `if (!categories[currentCategory]) categories[currentCategory] = []`. -/
def ensureKey (m : List (String × List Item)) (k : String) : List (String × List Item) :=
  if m.any (fun kv => kv.1 == k) then m else m ++ [(k, [])]

/-- `categories[currentCategory].push(item)` (keys are unique). -/
def pushKey (m : List (String × List Item)) (k : String) (it : Item) :
    List (String × List Item) :=
  m.map (fun kv => if kv.1 == k then (kv.1, kv.2 ++ [it]) else kv)

/-- `rooms.find(r => r.id === currentRoom)` followed by `room.items.push`:
only the first room with the id is extended. -/
def pushRoomItem : List Room → String → Item → List Room
  | [], _, _ => []
  | r :: rs, rid, it =>
    if r.id == rid then { r with items := r.items ++ [it] } :: rs
    else r :: pushRoomItem rs rid it

/-- one iteration of the `lines.forEach` body of
`RiderParser.parseItemsAndCategories` (the `if (roomMatch)` and
`if (currentRoom)` truthiness tests make the empty string act like
`undefined`). -/
def lcStep (st : LCState) (line : String) : LCState :=
  let trimmed := jsTrim line
  if trimmed = "" then st
  else
    match detectCategory trimmed with
    | some cat => { st with category := cat, categories := ensureKey st.categories cat }
    | none =>
      let st1 :=
        match detectRoomContext trimmed with
        | some rid => if rid = "" then st else { st with room := some rid }
        | none => st
      match parseItem trimmed st1.category st1.room with
      | some it =>
        { st1 with
          items := st1.items ++ [it],
          categories := pushKey (ensureKey st1.categories st1.category) st1.category it,
          rooms :=
            match st1.room with
            | some rid => if rid = "" then st1.rooms else pushRoomItem st1.rooms rid it
            | none => st1.rooms }
      | none => st1

/-- `text.split('\n')`. -/
def splitNl : List Char → List (List Char)
  | [] => [[]]
  | c :: s =>
    if c = '\n' then [] :: splitNl s
    else
      match splitNl s with
      | [] => [[c]]
      | h :: t => (c :: h) :: t

def splitNlStr (s : String) : List String := (splitNl s.data).map String.mk

/-- `RiderParser.parseItemsAndCategories`: a single left-to-right pass with
running category (initially `General`) and room (initially `null`). -/
def parseItemsAndCategories (text : String) (rooms : List Room) : LCState :=
  (splitNlStr text).foldl lcStep ⟨"General", none, [], [], rooms⟩

/-- JavaScript `Set.prototype.add`: insertion order, duplicates suppressed. -/
def addUniq (l : List String) (s : String) : List String :=
  if l.contains s then l else l ++ [s]

/-- `RiderParser.parseArtists` (minimum artist name length 3). -/
def parseArtists (text : String) : List String :=
  PATTERNS.artist.foldl (fun acc p =>
    (jsMatchAll p text).foldl (fun acc m =>
      let artist := cleanName (mget m 1)
      if artist ≠ "" ∧ 3 ≤ artist.length then addUniq acc artist else acc) acc) []

/-- `RiderParser.parseRooms`: the seen-id set is shared across all three
patterns; the description is the cleaned second capture. -/
def parseRooms (text : String) : List Room :=
  PATTERNS.room.foldl (fun acc p =>
    (jsMatchAll p text).foldl (fun acc m =>
      match mget m 1 with
      | some id =>
        if id ≠ "" ∧ ¬ acc.any (fun r => r.id == id) then
          acc ++ [⟨id, "Room " ++ id, cleanName (mget m 2), []⟩]
        else acc
      | none => acc) acc) []

/-- `RiderParser.parseContacts`.  The email and phone lookups call
`String.prototype.match` with GLOBAL regexes, so the result is the array of
matched substrings: `emailMatch[1]` is the second email in the window
(`undefined` when the window holds only one) and `phoneMatch[0]` the first
phone match.  The window is `[max(0, index − 100), min(length, index + 200))`
(`Nat` subtraction models `Math.max(0, ·)`). -/
def parseContacts (text : String) : List Contact :=
  (jsMatchAll PATTERNS.contactName text).foldl (fun acc m =>
    let name := cleanName (mget m 1)
    let role := if strIncludes (String.mk m.matched) "Manager" then "Tour Manager" else "Contact"
    let hi := min text.length (m.index + 200)
    let nearby := String.mk ((text.data.take hi).drop (m.index - 100))
    let email :=
      match jsMatchG PATTERNS.contactEmail nearby with
      | some ms => ms.get? 1
      | none => none
    let phone :=
      match jsMatchG PATTERNS.contactPhone nearby with
      | some ms => (ms.get? 0).map cleanPhone
      | none => none
    if name ≠ "" then acc ++ [⟨name, role, email, phone⟩] else acc) []

/-- `RiderParser.parseAllergies`. -/
def parseAllergies (text : String) : List String :=
  PATTERNS.allergy.foldl (fun acc p =>
    (jsMatchAll p text).foldl (fun acc m =>
      let allergy := cleanAllergy ((mget m 1).getD "")
      if allergy ≠ "" ∧ allergy.length < 100 then
        let acc := COMMON_ALLERGENS.foldl (fun acc common =>
          if strIncludes (jsToLower allergy) common then addUniq acc common else acc) acc
        if allergy.length < 50 then addUniq acc allergy else acc
      else acc) acc) []

/-- `RiderParser.parseSpecialRequirements`.  The temperature, timing and
must-have regexes carry only the `i` flag, so each `text.matchAll(...)`
call throws a `TypeError` (ECMAScript 2020+); the first one aborts the
function before any requirement is collected. -/
def parseSpecialRequirements (text : String) : Except JsErr (List String) := do
  let tempMatches ← jsMatchAllE false PATTERNS.temperature text
  let timeMatches ← jsMatchAllE false PATTERNS.timing text
  let mustHaveMatches ← jsMatchAllE false PATTERNS.mustHave text
  let reqs := tempMatches.map (fun m =>
    "Temperature: " ++ (mget m 1).getD "" ++ "°" ++ (mget m 2).getD "")
  let reqs := reqs ++ timeMatches.map (fun m => "Timing: " ++ String.mk m.matched)
  let reqs := reqs ++ mustHaveMatches.foldl (fun acc m =>
    let context := String.mk ((text.data.drop m.index).take 100)
    match jsFirstMatch letterSpacesRE context with
    | some im => acc ++ ["Must Have: " ++ jsTrim ((mget im 1).getD "")]
    | none => acc) []
  return reqs

/-- `RiderParser.parseWithRegex`: the six extraction steps in source order;
a throw from any step propagates. -/
def parseWithRegex (text : String) : Except JsErr StructuredRider := do
  let artists := parseArtists text
  let rooms := parseRooms text
  let contacts := parseContacts text
  let allergies := parseAllergies text
  let specialRequirements ← parseSpecialRequirements text
  let st := parseItemsAndCategories text rooms
  return { artists := artists, rooms := st.rooms, categories := st.categories,
           items := st.items, allergies := allergies, contacts := contacts,
           specialRequirements := specialRequirements }

/-- the raw shape an external (LLM) extraction may return; every field may
be missing (`data.items || []` style defaults are applied by
`standardizeOutput`). -/
structure LlmRaw where
  artists : Option (List String) := none
  rooms : Option (List Room) := none
  categories : Option (List (String × List Item)) := none
  items : Option (List Item) := none
  allergies : Option (List String) := none
  contacts : Option (List Contact) := none
  specialRequirements : Option (List String) := none

/-- `RiderParser.standardizeOutput`. -/
def standardizeOutput (d : LlmRaw) : StructuredRider :=
  { artists := d.artists.getD [], rooms := d.rooms.getD [],
    categories := d.categories.getD [], items := d.items.getD [],
    allergies := d.allergies.getD [], contacts := d.contacts.getD [],
    specialRequirements := d.specialRequirements.getD [] }

/-- `RiderParser.parse`.  `llmConfigured` models
`this.llmEnabled && this.apiKey`; `llm` is the external call
(`Except.error` = throw, `some`/`none` inside = the parsed JSON object or
`null`); the second component counts external attempts.  The external
result is used only when it carries a non-empty `items` collection
(`llmResult && llmResult.items && llmResult.items.length > 0`); a throw is
caught and falls through to the regex path. -/
def parse (llmConfigured : Bool) (llm : String → Except JsErr (Option LlmRaw))
    (text : String) : Except JsErr StructuredRider × Nat :=
  let cleanedText := normalizeText text
  if llmConfigured then
    match llm cleanedText with
    | .ok (some r) =>
      if (r.items.getD []).isEmpty then (parseWithRegex cleanedText, 1)
      else (.ok (standardizeOutput r), 1)
    | .ok none => (parseWithRegex cleanedText, 1)
    | .error _ => (parseWithRegex cleanedText, 1)
  else (parseWithRegex cleanedText, 0)

end RiderParser

/-! ### `ChecklistManager.flattenItems` (`src/checklist.js`) -/

namespace ChecklistManager

/-- an entry of the flattened checklist view: `{id: item_N, ...item}` plus
the optional `roomId`/`roomName` added by the room pass. -/
structure FlatItem where
  id : Nat
  name : String
  quantity : Int
  unit : String
  brand : Option String
  room : Option String
  category : String
  notes : String
  mustHave : Bool
  roomId : Option String
  roomName : Option String
deriving DecidableEq

/-- `{id: item_${id++}, ...item}`; the counter always equals the current
length of the accumulated array, since it is incremented exactly on push. -/
def flatOfItem (idn : Nat) (it : Item) : FlatItem :=
  ⟨idn, it.name, it.quantity, it.unit, it.brand, it.room, it.category,
   it.notes, it.mustHave, none, none⟩

/-- pushing one room item: `items.push({id, ...item, roomId: room.id,
roomName: room.name || Room ${room.id}})`. -/
def roomStep (r : Room) (acc : List FlatItem) (it : Item) : List FlatItem :=
  acc ++ [{ flatOfItem acc.length it with
    roomId := some r.id,
    roomName := some (if r.name ≠ "" then r.name else "Room " ++ r.id) }]

/-- first pass of `flattenItems`: every room item is pushed. -/
def roomPass (data : StructuredRider) : List FlatItem :=
  if data.rooms.isEmpty then []
  else data.rooms.foldl (fun acc r => r.items.foldl (roomStep r) acc) []

/-- pushing one category-bucket item unless an already-accumulated entry
agrees on name, bucket key and room (`i.name === item.name &&
i.category === category && i.room === item.room`); the pushed entry gets
`category` overwritten by the bucket key. -/
def catStep (key : String) (acc : List FlatItem) (it : Item) : List FlatItem :=
  if acc.any (fun i => i.name == it.name && i.category == key && i.room == it.room) then acc
  else acc ++ [{ flatOfItem acc.length it with category := key }]

/-- second pass: the category buckets in insertion order. -/
def catPass (data : StructuredRider) (acc0 : List FlatItem) : List FlatItem :=
  data.categories.foldl (fun acc kv => kv.2.foldl (catStep kv.1) acc) acc0

/-- pushing one standalone item unless an already-accumulated entry agrees
on name and category. -/
def itemStep (acc : List FlatItem) (it : Item) : List FlatItem :=
  if acc.any (fun i => i.name == it.name && i.category == it.category) then acc
  else acc ++ [flatOfItem acc.length it]

/-- third pass: the flat `data.items` view. -/
def itemPass (data : StructuredRider) (acc0 : List FlatItem) : List FlatItem :=
  data.items.foldl itemStep acc0

/-- `ChecklistManager.flattenItems`: rooms, then categories, then
standalone items, accumulating into one array. -/
def flattenItems (data : StructuredRider) : List FlatItem :=
  itemPass data (catPass data (roomPass data))

end ChecklistManager

/-! ### Properties of the text normalizer -/

namespace RiderParser

theorem collapseWsAux_ws_eq_space : ∀ (l : List Char) (b : Bool) (c : Char),
    c ∈ collapseWsAux b l → isJsWs c = true → c = ' ' := by
  intro l
  induction l with
  | nil => intro b c hc _; simp [collapseWsAux] at hc
  | cons d s ih =>
    intro b c hc hw
    simp only [collapseWsAux] at hc
    by_cases hd : isJsWs d = true
    · rw [if_pos hd] at hc
      cases b with
      | true => exact ih true c hc hw
      | false =>
        rcases List.mem_cons.mp hc with h | h
        · exact h
        · exact ih true c h hw
    · rw [if_neg hd] at hc
      rcases List.mem_cons.mp hc with h | h
      · subst h; exact absurd hw hd
      · exact ih false c h hw

theorem mem_collapseWsAux_ne_nl {b : Bool} {l : List Char} {c : Char}
    (h : c ∈ collapseWsAux b l) : c ≠ '\n' := by
  intro hc
  subst hc
  have := collapseWsAux_ws_eq_space l b '\n' h (by decide)
  exact absurd this (by decide)

theorem mem_collapseWsAux_ne_cr {b : Bool} {l : List Char} {c : Char}
    (h : c ∈ collapseWsAux b l) : c ≠ '\r' := by
  intro hc
  subst hc
  have := collapseWsAux_ws_eq_space l b '\r' h (by decide)
  exact absurd this (by decide)

theorem mem_collapseWsAux_ne_tab {b : Bool} {l : List Char} {c : Char}
    (h : c ∈ collapseWsAux b l) : c ≠ '\t' := by
  intro hc
  subst hc
  have := collapseWsAux_ws_eq_space l b '\t' h (by decide)
  exact absurd this (by decide)

theorem collapseWsAux_cons_ws_true {d : Char} {s : List Char} (hd : isJsWs d = true) :
    collapseWsAux true (d :: s) = collapseWsAux true s := by
  simp [collapseWsAux, hd]

theorem collapseWsAux_cons_ws_false {d : Char} {s : List Char} (hd : isJsWs d = true) :
    collapseWsAux false (d :: s) = ' ' :: collapseWsAux true s := by
  simp [collapseWsAux, hd]

theorem collapseWsAux_cons_not_ws {d : Char} {s : List Char} (hd : isJsWs d = false)
    (b : Bool) : collapseWsAux b (d :: s) = d :: collapseWsAux false s := by
  simp [collapseWsAux, hd]

theorem collapseWsAux_true_eq : ∀ l : List Char,
    collapseWsAux true l = collapseWsAux false (l.dropWhile isJsWs) := by
  intro l
  induction l with
  | nil => rfl
  | cons d s ih =>
    cases hd : isJsWs d with
    | true =>
      rw [collapseWsAux_cons_ws_true hd, List.dropWhile_cons_of_pos hd, ih]
    | false =>
      rw [collapseWsAux_cons_not_ws hd true, List.dropWhile_cons_of_neg (by simp [hd]),
        collapseWsAux_cons_not_ws hd false]

theorem head_dropWhile_not_ws : ∀ (s : List Char) (d : Char),
    (s.dropWhile isJsWs).head? = some d → isJsWs d = false := by
  intro s
  induction s with
  | nil => intro d h; simp [List.dropWhile] at h
  | cons c t ih =>
    intro d h
    cases hc : isJsWs c with
    | true =>
      rw [List.dropWhile_cons_of_pos hc] at h
      exact ih d h
    | false =>
      rw [List.dropWhile_cons_of_neg (by simp [hc])] at h
      simp only [List.head?_cons, Option.some.injEq] at h
      subst h
      exact hc

theorem dropWhile_collapseWsAux_eq (l : List Char)
    (hl : ∀ d, l.head? = some d → isJsWs d = false) :
    List.dropWhile isJsWs (collapseWsAux false l) = collapseWsAux false l := by
  cases l with
  | nil => rfl
  | cons d s =>
    have hd := hl d rfl
    rw [collapseWsAux_cons_not_ws hd false]
    exact List.dropWhile_cons_of_neg (by simp [hd])

theorem collapseWsAux_idem_aux : ∀ (n : Nat) (l : List Char), l.length ≤ n →
    collapseWsAux false (collapseWsAux false l) = collapseWsAux false l := by
  intro n
  induction n with
  | zero =>
    intro l hl
    have : l = [] := List.length_eq_zero.mp (Nat.le_zero.mp hl)
    subst this
    rfl
  | succ n ih =>
    intro l hl
    cases l with
    | nil => rfl
    | cons d s =>
      cases hd : isJsWs d with
      | true =>
        rw [collapseWsAux_cons_ws_false hd, collapseWsAux_true_eq,
          collapseWsAux_cons_ws_false (by decide : isJsWs ' ' = true),
          collapseWsAux_true_eq,
          dropWhile_collapseWsAux_eq _ (head_dropWhile_not_ws s)]
        have hlen : (s.dropWhile isJsWs).length ≤ n :=
          le_trans (dropWhile_length_le _ _) (Nat.le_of_succ_le_succ hl)
        rw [ih (s.dropWhile isJsWs) hlen]
      | false =>
        rw [collapseWsAux_cons_not_ws hd false, collapseWsAux_cons_not_ws hd false,
          ih s (Nat.le_of_succ_le_succ hl)]

theorem collapseWsAux_idem (l : List Char) :
    collapseWsAux false (collapseWsAux false l) = collapseWsAux false l :=
  collapseWsAux_idem_aux l.length l (Nat.le_refl _)

theorem crlfToNl_cons_ne {c : Char} (s : List Char) (hc : c ≠ '\r') :
    crlfToNl (c :: s) = c :: crlfToNl s := by
  cases s with
  | nil => rfl
  | cons d t =>
    simp only [crlfToNl]
    rw [if_neg (fun h => hc h.1)]

theorem crlfToNl_no_cr : ∀ l : List Char, (∀ c ∈ l, c ≠ '\r') → crlfToNl l = l := by
  intro l
  induction l with
  | nil => intro _; rfl
  | cons c s ih =>
    intro h
    rw [crlfToNl_cons_ne s (h c (List.mem_cons_self c s))]
    rw [ih (fun d hd => h d (List.mem_cons_of_mem c hd))]

theorem crToNl_no_cr : ∀ l : List Char, (∀ c ∈ l, c ≠ '\r') → crToNl l = l := by
  intro l
  induction l with
  | nil => intro _; rfl
  | cons c s ih =>
    intro h
    simp only [crToNl, List.map_cons]
    rw [if_neg (h c (List.mem_cons_self c s))]
    have := ih (fun d hd => h d (List.mem_cons_of_mem c hd))
    simp only [crToNl] at this
    rw [this]

theorem tabToSp_no_tab : ∀ l : List Char, (∀ c ∈ l, c ≠ '\t') → tabToSp l = l := by
  intro l
  induction l with
  | nil => intro _; rfl
  | cons c s ih =>
    intro h
    simp only [tabToSp, List.map_cons]
    rw [if_neg (h c (List.mem_cons_self c s))]
    have := ih (fun d hd => h d (List.mem_cons_of_mem c hd))
    simp only [tabToSp] at this
    rw [this]

theorem collapseNlAux_no_nl : ∀ l : List Char, (∀ c ∈ l, c ≠ '\n') →
    collapseNlAux 0 l = l := by
  intro l
  induction l with
  | nil => intro _; rfl
  | cons c s ih =>
    intro h
    simp only [collapseNlAux]
    rw [if_neg (h c (List.mem_cons_self c s))]
    rw [ih (fun d hd => h d (List.mem_cons_of_mem c hd))]
    rfl

theorem collapseNl_no_nl (l : List Char) (h : ∀ c ∈ l, c ≠ '\n') :
    collapseNl l = l := collapseNlAux_no_nl l h

/-- the normalized character list is exactly the whitespace-collapsed list:
the final `/\n{3,}/g` replacement never fires because the `/\s+/g` pass has
already removed every line feed. -/
theorem normalizeText_data (t : String) : (normalizeText t).data
    = collapseWsAux false (tabToSp (crToNl (crlfToNl t.data))) := by
  show (collapseNl (collapseWsAux false (tabToSp (crToNl (crlfToNl t.data)))))
    = collapseWsAux false (tabToSp (crToNl (crlfToNl t.data)))
  exact collapseNl_no_nl _ (fun c hc => mem_collapseWsAux_ne_nl hc)

theorem normalizeText_no_nl (t : String) : ∀ c ∈ (normalizeText t).data, c ≠ '\n' := by
  intro c hc
  rw [normalizeText_data] at hc
  exact mem_collapseWsAux_ne_nl hc

theorem splitNl_no_nl : ∀ l : List Char, (∀ c ∈ l, c ≠ '\n') → splitNl l = [l] := by
  intro l
  induction l with
  | nil => intro _; rfl
  | cons c s ih =>
    intro h
    simp only [splitNl]
    rw [if_neg (h c (List.mem_cons_self c s))]
    rw [ih (fun d hd => h d (List.mem_cons_of_mem c hd))]

set_option maxHeartbeats 1000000 in
theorem lcStep_items_le (st : LCState) (line : String) :
    (lcStep st line).items.length ≤ st.items.length + 1 := by
  unfold lcStep
  dsimp only
  split
  · exact Nat.le_succ _
  · split
    · exact Nat.le_succ _
    · split
      all_goals try split
      all_goals try split
      all_goals try dsimp only
      all_goals try simp only [List.length_append, List.length_cons, List.length_nil]
      all_goals omega

end RiderParser

/-! ### Claims -/

open RiderParser ChecklistManager

/-- C1 (code bug): the spec says `parseWithRegex` returns an all-empty
`StructuredRider` without throwing when no pattern matches, but already on
the empty string it throws: `parseSpecialRequirements` calls
`String.prototype.matchAll` with the non-global `temperature` regex, which
is a `TypeError`. -/
theorem parseWithRegex_empty_throws :
    parseWithRegex "" = Except.error JsErr.typeError := rfl

/-- C2 (amended): whenever the external extraction is unconfigured, throws,
returns `null`, or returns a missing/empty `items` collection, `parse`
yields exactly what the deterministic path `parseWithRegex ∘ normalizeText`
yields (currently a `TypeError`, by C1); the external path is attempted at
most once — exactly once when configured — and is never retried. -/
theorem parse_fallback_eq (cfg : Bool)
    (llm : String → Except JsErr (Option LlmRaw)) (text : String)
    (h : cfg = false ∨ (∃ e, llm (normalizeText text) = .error e)
      ∨ llm (normalizeText text) = .ok none
      ∨ ∃ r, llm (normalizeText text) = .ok (some r) ∧ (r.items.getD []).isEmpty = true) :
    (parse cfg llm text).1 = parseWithRegex (normalizeText text)
    ∧ (parse cfg llm text).2 ≤ 1
    ∧ (cfg = true → (parse cfg llm text).2 = 1) := by
  cases cfg with
  | false => exact ⟨rfl, Nat.zero_le _, fun hh => nomatch hh⟩
  | true =>
    rcases h with hcfg | ⟨e, he⟩ | he | ⟨r, hr, hempty⟩
    · exact nomatch hcfg
    · refine ⟨?_, ?_, fun _ => ?_⟩ <;> simp [parse, he]
    · refine ⟨?_, ?_, fun _ => ?_⟩ <;> simp [parse, he]
    · refine ⟨?_, ?_, fun _ => ?_⟩ <;> simp [parse, hr, hempty]

/-- witness for C2: a throwing external call on the empty document falls
back to the deterministic path, with exactly one external attempt. -/
theorem parse_fallback_eq_witness :
    (parse true (fun _ => Except.error JsErr.typeError) "").1
      = parseWithRegex (normalizeText "")
    ∧ (parse true (fun _ => Except.error JsErr.typeError) "").2 ≤ 1
    ∧ (true = true → (parse true (fun _ => Except.error JsErr.typeError) "").2 = 1) :=
  parse_fallback_eq true (fun _ => Except.error JsErr.typeError) ""
    (Or.inr (Or.inl ⟨JsErr.typeError, rfl⟩))

/-- counterexample for C2 as stated: with a throwing external call, `parse`
does not return a `StructuredRider` at all — it propagates the
deterministic path's `TypeError`. -/
theorem parse_no_result_returned :
    (parse true (fun _ => Except.error JsErr.typeError) "").1
      = Except.error JsErr.typeError := rfl

/-- C3 (code bug): `normalizeText` does not leave line breaks in place —
the `/\s+/g → ' '` pass replaces the line feed of `"a\nb"` with a space,
although the subsequent `/\n{3,}/g` rule and the `split('\n')` consumer
show line breaks were meant to survive. -/
theorem normalizeText_newline_to_space : normalizeText "a\nb" = "a b" := rfl

/-- C4 (code bug): the room-marker line `"Dressing Room 2 - Headliner"`
never sets the running room: `detectRoomContext` calls `line.match` with a
GLOBAL regex and returns `match[1]`, the second whole-match string, which
is `undefined` here; consequently both lines of the failing input are
parsed as items with `room = null` and room 2's item list stays empty. -/
theorem detectRoomContext_never_sets_room :
    detectRoomContext "Dressing Room 2 - Headliner" = none
    ∧ (parseItemsAndCategories "Dressing Room 2 - Headliner\n2 packs of gum"
        [⟨"2", "Room 2", "Headliner", []⟩]).rooms = [⟨"2", "Room 2", "Headliner", []⟩]
    ∧ (parseItemsAndCategories "Dressing Room 2 - Headliner\n2 packs of gum"
        [⟨"2", "Room 2", "Headliner", []⟩]).items.map Item.room = [none, none] :=
  ⟨rfl, rfl, rfl⟩

/-- counterexample for C5 as stated: on a line carrying both a leading and
a parenthetical quantity, both captures participate and the LEADING one
(capture 1) wins — `parseQuantity(match[1] || match[2])` — so the quantity
is 2, not the parenthetical 3. -/
theorem parseItem_leading_beats_parenthetical :
    ((jsMatchAt0 PATTERNS.item "2 (3) Red Bull cans").map (fun m => (mget m 1, mget m 2))
      = some (some "2", some "3"))
    ∧ ((parseItem "2 (3) Red Bull cans" "General" none).map Item.quantity = some 2) :=
  ⟨rfl, rfl⟩

/-- C5 (amended): the quantity of every built item is
`parseQuantity(match[1] || match[2])`: the leading numeric/written capture
takes precedence when present (and non-empty), else the parenthetical
capture, else the default 1. -/
theorem parseItem_quantity_precedence (line category : String) (room : Option String)
    (it : Item) (m : MatchRec)
    (hm : jsMatchAt0 PATTERNS.item line = some m)
    (hp : parseItem line category room = some it) :
    it.quantity = parseQuantity (jsOr (mget m 1) (mget m 2))
    ∧ (∀ s, mget m 1 = some s → s ≠ "" → it.quantity = parseQuantity (some s))
    ∧ ((mget m 1 = none ∨ mget m 1 = some "") → it.quantity = parseQuantity (mget m 2))
    ∧ (mget m 1 = none → mget m 2 = none → it.quantity = 1) := by
  unfold parseItem at hp
  rw [hm] at hp
  dsimp only at hp
  have hq : it.quantity = parseQuantity (jsOr (mget m 1) (mget m 2)) := by
    cases h3 : mget m 3 with
    | none => rw [h3] at hp; exact nomatch hp
    | some s3 =>
      rw [h3] at hp
      dsimp only at hp
      by_cases hs3 : s3 = ""
      · rw [if_pos hs3] at hp; exact nomatch hp
      · rw [if_neg hs3] at hp
        by_cases hn : cleanItemName s3 = "" ∨ (cleanItemName s3).length < 3
        · rw [if_pos hn] at hp; exact nomatch hp
        · rw [if_neg hn] at hp
          cases hp
          rfl
  refine ⟨hq, ?_, ?_, ?_⟩
  · intro s h1 hne
    rw [hq, h1]
    dsimp only [jsOr]
    rw [if_neg hne]
  · intro h1
    rcases h1 with h1 | h1 <;> rw [hq, h1] <;> simp [jsOr]
  · intro h1 h2
    rw [hq, h1, h2]
    rfl

/-- witness for C5: the concrete line `"2 (3) Red Bull cans"` instantiates
the precedence theorem, with the leading capture `"2"` deciding the
quantity. -/
theorem parseItem_quantity_precedence_witness :
    (parseItem "2 (3) Red Bull cans" "General" none).map Item.quantity
      = some (parseQuantity (some "2")) := by
  have h := parseItem_quantity_precedence "2 (3) Red Bull cans" "General" none
    ⟨"Red Bull cans", 2, "can", some "Red Bull", none, "General", "", false⟩
    ⟨0, ("2 (3) Red Bull cans").data,
      [none, some ("2").data, some ("3").data, some ("Red Bull cans").data, none]⟩
    rfl rfl
  have hv := h.2.1 "2" rfl (by decide)
  rw [show parseItem "2 (3) Red Bull cans" "General" none
    = some ⟨"Red Bull cans", 2, "can", some "Red Bull", none, "General", "", false⟩ from rfl]
  rw [Option.map_some']
  exact congrArg some hv

/-- counterexample for C6 as stated: `"two bottles of Fiji water"` gets
brand `"Fiji"`, not `null` — `detectBrand` finds the substring `Fiji` in
the item name. -/
theorem parseItem_fiji_brand :
    (parseItem "two bottles of Fiji water" "General" none).map Item.brand
      = some (some "Fiji") := rfl

/-- C6 (amended): `"(3) Red Bull cans"` maps to name `"Red Bull cans"`,
quantity 3, unit `"can"`; `"two bottles of Fiji water"` maps to quantity 2,
unit `"bottle"` and brand `"Fiji"`; a line with an unrecognized word
quantity maps to quantity 1. -/
theorem parseItem_examples :
    ((parseItem "(3) Red Bull cans" "General" none).map
      (fun it => (it.name, it.quantity, it.unit)) = some ("Red Bull cans", 3, "can"))
    ∧ ((parseItem "two bottles of Fiji water" "General" none).map
      (fun it => (it.quantity, it.unit, it.brand)) = some (2, "bottle", some "Fiji"))
    ∧ ((parseItem "some chips" "General" none).map Item.quantity = some 1) :=
  ⟨rfl, rfl, rfl⟩

/-- C7 (code bug): the contact window of the only match spans the whole
43-character text and contains exactly one email, yet no email is attached:
the email lookup uses `String.prototype.match` with the GLOBAL email regex,
so `emailMatch[1]` is the second matched substring — `undefined` when the
window holds a single email — rather than the capture group. -/
theorem parseContacts_single_email_not_attached :
    (jsMatchG PATTERNS.contactEmail "Manager: John Smith email john@example.com"
      = some ["john@example.com"])
    ∧ parseContacts "Manager: John Smith email john@example.com"
      = [⟨"John Smith", "Tour Manager", none, none⟩] :=
  ⟨rfl, rfl⟩

/-- C9: `normalizeText` is idempotent — its output contains no carriage
returns, tabs or line feeds and no uncollapsed whitespace run, so every
pass of a second application is the identity. -/
theorem normalizeText_idempotent (t : String) :
    normalizeText (normalizeText t) = normalizeText t := by
  have hnr : ∀ c ∈ (normalizeText t).data, c ≠ '\r' := by
    intro c hc; rw [normalizeText_data] at hc; exact mem_collapseWsAux_ne_cr hc
  have hnt : ∀ c ∈ (normalizeText t).data, c ≠ '\t' := by
    intro c hc; rw [normalizeText_data] at hc; exact mem_collapseWsAux_ne_tab hc
  show String.mk (collapseNl (collapseWsAux false (tabToSp (crToNl
    (crlfToNl (normalizeText t).data))))) = normalizeText t
  rw [crlfToNl_no_cr _ hnr, crToNl_no_cr _ hnr, tabToSp_no_tab _ hnt,
    normalizeText_data t, collapseWsAux_idem, ← normalizeText_data t,
    collapseNl_no_nl _ (normalizeText_no_nl t)]

/-- sameness test of the flattened-view deduplication (room-merge pass):
two entries are the same item occurrence when name, category and room
agree. -/
def ncrMatch (x : Item) (e : FlatItem) : Bool :=
  e.name == x.name && e.category == x.category && e.room == x.room

/-- the bucket of a category key (`data.categories[k]`, empty when the key
is absent). -/
def catBucket (data : StructuredRider) (k : String) : List Item :=
  ((data.categories.find? (fun kv => kv.1 == k)).map (fun kv => kv.2)).getD []

theorem ncrMatch_iff (x : Item) (e : FlatItem) :
    ncrMatch x e = true ↔ e.name = x.name ∧ e.category = x.category ∧ e.room = x.room := by
  simp [ncrMatch, Bool.and_eq_true, and_assoc]

theorem roomStep_mem_mono (r : Room) (acc : List FlatItem) (it : Item)
    {e : FlatItem} (he : e ∈ acc) : e ∈ roomStep r acc it :=
  List.mem_append_left _ he

theorem roomInner_mem_mono (r : Room) : ∀ (its : List Item) (acc : List FlatItem)
    (e : FlatItem), e ∈ acc → e ∈ its.foldl (roomStep r) acc := by
  intro its
  induction its with
  | nil => intro acc e he; exact he
  | cons it rest ih =>
    intro acc e he
    exact ih _ _ (roomStep_mem_mono r acc it he)

theorem roomInner_exists (r : Room) (x : Item) : ∀ (its : List Item) (acc : List FlatItem),
    x ∈ its → ∃ e ∈ its.foldl (roomStep r) acc, ncrMatch x e = true := by
  intro its
  induction its with
  | nil => intro acc hx; exact absurd hx (List.not_mem_nil x)
  | cons it rest ih =>
    intro acc hx
    rcases List.mem_cons.mp hx with h | h
    · subst h
      refine ⟨{ flatOfItem acc.length x with
          roomId := some r.id,
          roomName := some (if r.name ≠ "" then r.name else "Room " ++ r.id) },
        roomInner_mem_mono r rest _ _ ?_, ?_⟩
      · simp [roomStep]
      · simp [ncrMatch_iff, flatOfItem]
    · exact ih _ h

theorem roomOuter_mem_mono : ∀ (rooms : List Room) (acc : List FlatItem) (e : FlatItem),
    e ∈ acc → e ∈ rooms.foldl (fun acc r => r.items.foldl (roomStep r) acc) acc := by
  intro rooms
  induction rooms with
  | nil => intro acc e he; exact he
  | cons r rest ih =>
    intro acc e he
    exact ih _ _ (roomInner_mem_mono r r.items acc e he)

theorem roomOuter_exists (x : Item) : ∀ (rooms : List Room) (acc : List FlatItem)
    (r : Room), r ∈ rooms → x ∈ r.items →
    ∃ e ∈ rooms.foldl (fun acc r => r.items.foldl (roomStep r) acc) acc,
      ncrMatch x e = true := by
  intro rooms
  induction rooms with
  | nil => intro acc r hr; exact absurd hr (List.not_mem_nil r)
  | cons r0 rest ih =>
    intro acc r hr hx
    rcases List.mem_cons.mp hr with h | h
    · subst h
      rw [List.foldl_cons]
      rcases roomInner_exists _ x _ _ hx with ⟨e, he, hm⟩
      exact ⟨e, roomOuter_mem_mono rest _ e he, hm⟩
    · rw [List.foldl_cons]
      exact ih _ r h hx

theorem roomPass_exists (data : StructuredRider) (r : Room) (x : Item)
    (hr : r ∈ data.rooms) (hx : x ∈ r.items) :
    ∃ e ∈ roomPass data, ncrMatch x e = true := by
  unfold roomPass
  rw [if_neg (by simp [List.isEmpty_iff, List.ne_nil_of_mem hr])]
  exact roomOuter_exists x data.rooms [] r hr hx

theorem catStep_countP (x : Item) (key : String) (acc : List FlatItem) (it : Item)
    (hex : ∃ e ∈ acc, ncrMatch x e = true) :
    (catStep key acc it).countP (ncrMatch x) = acc.countP (ncrMatch x)
    ∧ ∃ e ∈ catStep key acc it, ncrMatch x e = true := by
  unfold catStep
  split
  · exact ⟨rfl, hex⟩
  · next hany =>
    rcases hex with ⟨e, he, hme⟩
    have hcand : ncrMatch x { flatOfItem acc.length it with category := key } = false := by
      cases hc : ncrMatch x { flatOfItem acc.length it with category := key } with
      | false => rfl
      | true =>
        rw [ncrMatch_iff] at hc
        simp only [flatOfItem] at hc
        rw [ncrMatch_iff] at hme
        exact absurd (List.any_eq_true.mpr ⟨e, he,
          by simp [hme.1, hme.2.1, hme.2.2, hc.1, hc.2.1, hc.2.2]⟩) hany
    constructor
    · rw [List.countP_append]
      simp [List.countP, List.countP.go, hcand]
    · exact ⟨e, List.mem_append_left _ he, hme⟩

theorem catInner_countP (x : Item) (key : String) : ∀ (its : List Item)
    (acc : List FlatItem), (∃ e ∈ acc, ncrMatch x e = true) →
    (its.foldl (catStep key) acc).countP (ncrMatch x) = acc.countP (ncrMatch x)
    ∧ ∃ e ∈ its.foldl (catStep key) acc, ncrMatch x e = true := by
  intro its
  induction its with
  | nil => intro acc hex; exact ⟨rfl, hex⟩
  | cons it rest ih =>
    intro acc hex
    have h1 := catStep_countP x key acc it hex
    have h2 := ih (catStep key acc it) h1.2
    exact ⟨by rw [List.foldl_cons, h2.1, h1.1], by rw [List.foldl_cons]; exact h2.2⟩

theorem catPass_countP (x : Item) (data : StructuredRider) : ∀ (acc : List FlatItem),
    (∃ e ∈ acc, ncrMatch x e = true) →
    (catPass data acc).countP (ncrMatch x) = acc.countP (ncrMatch x)
    ∧ ∃ e ∈ catPass data acc, ncrMatch x e = true := by
  unfold catPass
  induction data.categories with
  | nil => intro acc hex; exact ⟨rfl, hex⟩
  | cons kv rest ih =>
    intro acc hex
    have h1 := catInner_countP x kv.1 kv.2 acc hex
    have h2 := ih (kv.2.foldl (catStep kv.1) acc) h1.2
    exact ⟨by rw [List.foldl_cons, h2.1, h1.1], by rw [List.foldl_cons]; exact h2.2⟩

theorem itemStep_countP (x : Item) (acc : List FlatItem) (it : Item)
    (hex : ∃ e ∈ acc, ncrMatch x e = true) :
    (itemStep acc it).countP (ncrMatch x) = acc.countP (ncrMatch x)
    ∧ ∃ e ∈ itemStep acc it, ncrMatch x e = true := by
  unfold itemStep
  split
  · exact ⟨rfl, hex⟩
  · next hany =>
    rcases hex with ⟨e, he, hme⟩
    have hcand : ncrMatch x (flatOfItem acc.length it) = false := by
      cases hc : ncrMatch x (flatOfItem acc.length it) with
      | false => rfl
      | true =>
        rw [ncrMatch_iff] at hc
        simp only [flatOfItem] at hc
        rw [ncrMatch_iff] at hme
        exact absurd (List.any_eq_true.mpr ⟨e, he,
          by simp [hme.1, hme.2.1, hc.1, hc.2.1]⟩) hany
    constructor
    · rw [List.countP_append]
      simp [List.countP, List.countP.go, hcand]
    · exact ⟨e, List.mem_append_left _ he, hme⟩

theorem itemPass_countP (x : Item) (data : StructuredRider) : ∀ (acc : List FlatItem),
    (∃ e ∈ acc, ncrMatch x e = true) →
    (itemPass data acc).countP (ncrMatch x) = acc.countP (ncrMatch x) := by
  unfold itemPass
  induction data.items with
  | nil => intro acc _; rfl
  | cons it rest ih =>
    intro acc hex
    have h1 := itemStep_countP x acc it hex
    rw [List.foldl_cons, ih (itemStep acc it) h1.2, h1.1]

/-- C8: an item sitting identically in a room bucket and in its category's
bucket is not duplicated in the flattened view: the room pass contributes
its (name, category, room) occurrence, and neither the category pass (which
drops entries matching an earlier one on name, bucket key and room) nor the
standalone pass (name and category) adds another. -/
theorem flattenItems_dedup (data : StructuredRider) (r : Room) (x : Item)
    (hr : r ∈ data.rooms) (hx : x ∈ r.items)
    (_hb : x ∈ catBucket data x.category) :
    1 ≤ (roomPass data).countP (ncrMatch x)
    ∧ (flattenItems data).countP (ncrMatch x) = (roomPass data).countP (ncrMatch x) := by
  have hex := roomPass_exists data r x hr hx
  constructor
  · exact Nat.succ_le_of_lt (List.countP_pos_iff.mpr hex)
  · have h1 := catPass_countP x data (roomPass data) hex
    have h2 := itemPass_countP x data (catPass data (roomPass data)) h1.2
    unfold flattenItems
    rw [h2, h1.1]

/-- witness for C8: a concrete rider whose item `Water` sits identically in
room 1's bucket and in the `General` category bucket is flattened with a
single matching occurrence. -/
theorem flattenItems_dedup_witness :
    1 ≤ (roomPass ⟨[], [⟨"1", "Room 1", "", [⟨"Water", 1, "item", none, some "1", "General", "", false⟩]⟩],
          [("General", [⟨"Water", 1, "item", none, some "1", "General", "", false⟩])],
          [⟨"Water", 1, "item", none, some "1", "General", "", false⟩], [], [], []⟩).countP
        (ncrMatch ⟨"Water", 1, "item", none, some "1", "General", "", false⟩)
    ∧ (flattenItems ⟨[], [⟨"1", "Room 1", "", [⟨"Water", 1, "item", none, some "1", "General", "", false⟩]⟩],
          [("General", [⟨"Water", 1, "item", none, some "1", "General", "", false⟩])],
          [⟨"Water", 1, "item", none, some "1", "General", "", false⟩], [], [], []⟩).countP
        (ncrMatch ⟨"Water", 1, "item", none, some "1", "General", "", false⟩)
      = (roomPass ⟨[], [⟨"1", "Room 1", "", [⟨"Water", 1, "item", none, some "1", "General", "", false⟩]⟩],
          [("General", [⟨"Water", 1, "item", none, some "1", "General", "", false⟩])],
          [⟨"Water", 1, "item", none, some "1", "General", "", false⟩], [], [], []⟩).countP
        (ncrMatch ⟨"Water", 1, "item", none, some "1", "General", "", false⟩) :=
  flattenItems_dedup _ _ _ (List.mem_cons_self _ _) (List.mem_cons_self _ _) (by decide)

/-- C10: since `normalizeText` erases every line break (C3), the line
classifier sees a single line and builds at most one item in total. -/
theorem parseItemsAndCategories_normalized_single (t : String) (rooms : List Room) :
    (parseItemsAndCategories (normalizeText t) rooms).items.length ≤ 1 := by
  unfold parseItemsAndCategories splitNlStr
  rw [splitNl_no_nl _ (normalizeText_no_nl t)]
  simp only [List.map_cons, List.map_nil, List.foldl_cons, List.foldl_nil]
  have h := lcStep_items_le ⟨"General", none, [], [], rooms⟩
    (String.mk (normalizeText t).data)
  simpa using h

end RiderSpec
